import Mathlib

/-!
Shallow embedding of the `splitmod` inclusion engine
(`src/splitmod/__init__.py`): a library that splits one python module
across several source files by executing each included file directly into
a caller-supplied scope dictionary.

Modelling conventions (fixed for the whole development):

* Python dicts (the caller's scope, `sys.modules`) are association lists
  with first-match lookup (`alookup`) and replace-first-or-append update
  (`aset`); `del` is `aremove`.
* The python values the claims touch are the inductive `Value`; the
  `__included_files__` bookkeeping list kept by
  `SplitModuleLoader.exec_module` is the `Value.vpaths` constructor.
* A fragment file is its path plus a list of simple top-level statements
  (constant or variable-copy assignments, and a `raise`); python's
  `exec(source, scope)` is `execStmts`.  A `raise` carries `isExc = true`
  when the raised error derives from `Exception` (what `except Exception`
  catches) and `isExc = false` for `BaseException`-only kinds such as
  `SystemExit` or `KeyboardInterrupt`.
* The host import machinery is reduced to two oracles in `Env`:
  `fsRoot` is the directory listing seen by the `FileFinder` that
  `SplitFileFinder` builds over the including file's directory (already
  restricted to the session's suffix), and `hostFind` is what the host's
  unmodified resolution chain (`PathFinder`, path hooks, `sys.path`) can
  locate for a dotted name, given as the source fragment it would load.
  The transient path entry installed by `_load_file_path_as_module` is
  folded into `hostFind`; the `sys.path_importer_cache` is not modelled.
* Caller-frame introspection (`sys._getframe`) is replaced by passing the
  caller's scope and directory (`Env.root`) explicitly.
* Values are immutable here, so the in-place `list.append` on the shared
  `__included_files__` object is modelled by writing the extended list
  back into the scope at the point of the append.
* Only relative, dot-free path segments are modelled, so the
  `.lstrip(".")` on joined parts is the identity and is dropped.
-/

namespace Splitmod

/-- Association-list lookup with first-match semantics, modelling python
dict lookup. -/
def alookup {α : Type} : List (String × α) → String → Option α
  | [], _ => none
  | (m, w) :: rest, n => if m = n then some w else alookup rest n

/-- Association-list update: replace the first binding of the key if
present, otherwise append, modelling python dict item assignment. -/
def aset {α : Type} : List (String × α) → String → α → List (String × α)
  | [], n, v => [(n, v)]
  | (m, w) :: rest, n, v =>
      if m = n then (n, v) :: rest else (m, w) :: aset rest n v

/-- Association-list removal of the first binding of a key, modelling
python dict deletion. -/
def aremove {α : Type} : List (String × α) → String → List (String × α)
  | [], _ => []
  | (m, w) :: rest, n => if m = n then rest else (m, w) :: aremove rest n

/-- Python values relevant to the claims.  `vpaths` is the list of file
locations kept under `__included_files__`. -/
inductive Value : Type where
  | vnone
  | vbool (b : Bool)
  | vint (n : Int)
  | vstr (s : String)
  | vpaths (ps : List String)
  deriving DecidableEq

/-- A scope (namespace under assembly): a python dict from names to
values. -/
abbrev Scope := List (String × Value)

/-- Right-hand sides of top-level assignments in a fragment. -/
inductive Expr : Type where
  | const (v : Value)
  | var (n : String)
  deriving DecidableEq

/-- Expression evaluation against a scope; a read of an unbound name is
`none` (python raises `NameError` there). -/
def Expr.eval (sc : Scope) : Expr → Option Value
  | .const v => some v
  | .var n => alookup sc n

/-- Top-level statements of a fragment: an assignment, or a statement that
raises (`isExc` records whether the raised error is an `Exception`
subclass). -/
inductive Stmt : Type where
  | assign (n : String) (e : Expr)
  | raiseSt (isExc : Bool)
  deriving DecidableEq

/-- Error kinds of the engine's taxonomy. -/
inductive ErrKind : Type where
  | moduleNotFound
  | nameError
  | execError
  deriving DecidableEq

/-- A python error: its kind plus whether it derives from `Exception`
(`true`) or only from `BaseException` (`false`). -/
structure PyErr where
  kind : ErrKind
  isExc : Bool
  deriving DecidableEq

/-- Model of `exec(source, scope)`: run the statements in order, mutating
the scope in place; stop at the first failure, keeping the partial
mutations already performed. -/
def execStmts : List Stmt → Scope → Scope × Option PyErr
  | [], sc => (sc, none)
  | .assign n e :: rest, sc =>
      match Expr.eval sc e with
      | some v => execStmts rest (aset sc n v)
      | none => (sc, some ⟨.nameError, true⟩)
  | .raiseSt b :: _, sc => (sc, some ⟨.execError, b⟩)

/-- One source fragment: the file location plus its statements. -/
structure Fragment where
  path : String
  stmts : List Stmt
  deriving DecidableEq

/-- The scope key `SplitModuleLoader.exec_module` records included file
locations under. -/
def includedKey : String := "__included_files__"

/-- Tail of `SplitModuleLoader.exec_module` once the stack has been
fetched and the new location appended: run the fragment; on success clear
`is_loading` and write the stack back; on failure the flag keeps the value
`True` it was given before `exec` ran (the source has no `finally`). -/
def execModuleBody (frag : Fragment) (ps : List String) (sc0 : Scope) :
    Scope × Bool × Option PyErr :=
  match execStmts frag.stmts sc0 with
  | (sc1, some e) => (sc1, true, some e)
  | (sc1, none) => (aset sc1 includedKey (.vpaths ps), false, none)

/-- Model of `SplitModuleLoader.exec_module`: set `is_loading`, fetch the
`__included_files__` list (default empty), append the fragment's location
(in place, hence visible during the body when the key was present), run
the fragment's statements against the shared scope, then reset the flag
and store the stack — the reset and the store happen only on the success
path.  Returns (scope, final is_loading flag, error).  When the key holds
a non-list value, the `append` call itself raises (`AttributeError`, an
`Exception` subclass) with the flag already set. -/
def execModule (frag : Fragment) (sc : Scope) : Scope × Bool × Option PyErr :=
  match alookup sc includedKey with
  | some (.vpaths ps) =>
      execModuleBody frag (ps ++ [frag.path])
        (aset sc includedKey (.vpaths (ps ++ [frag.path])))
  | some _ => (sc, true, some ⟨.execError, true⟩)
  | none => execModuleBody frag [frag.path] sc

/-- A loader association on a module: either a loader of the host's import
machinery (`SourceFileLoader` and friends) or the scope-directed
`SplitModuleLoader`. -/
inductive LoaderRef : Type where
  | source
  | split
  deriving DecidableEq

/-- A module object as registered in `sys.modules`: its `__spec__.loader`,
its `__loader__` attribute, and its namespace (`vars(module)`). -/
structure Module where
  specLoader : LoaderRef
  dunderLoader : LoaderRef
  attrs : List (String × Value)
  deriving DecidableEq

/-- The process-wide interpreter state the engine mutates: the module
registry `sys.modules`, the number of `sys.path_hooks` entries installed
by `_load_file_path_as_module` that are currently present, the `sys.path`
entries it has appended, and the number of split finders currently sitting
on `sys.meta_path`. -/
structure Sys where
  modules : List (String × Module)
  pathHooks : Nat
  sysPath : List String
  metaPath : Nat
  deriving DecidableEq

/-- The static environment of one `include()` call: the including file's
directory (`root`), the directory view of the split `FileFinder` over that
directory (stem of a file with the session's suffix, directly in `root`,
mapped to its fragment), and the host resolution chain's view of dotted
names (the source fragment the host would locate and load for that
name). -/
structure Env where
  root : String
  fsRoot : String → Option Fragment
  hostFind : String → Option Fragment

/-- The resource argument of `include()`: a filesystem path (directory
segments, stem and suffix of the final file) or a dotted name. -/
inductive Resource : Type where
  | path (dirs : List String) (stem : String) (sfx : String)
  | dotted (name : String)
  deriving DecidableEq

/-- Split a name on dots, as python's `str.split(".")` (implemented over
the character list so that it evaluates inside the kernel). -/
def splitDotsAux : List Char → List Char → List String
  | [], acc => [⟨acc.reverse⟩]
  | '.' :: rest, acc => ⟨acc.reverse⟩ :: splitDotsAux rest []
  | c :: rest, acc => splitDotsAux rest (c :: acc)

/-- Split a name on dots, as python's `str.split(".")`. -/
def splitDots (s : String) : List String := splitDotsAux s.data []

/-- Whether a name contains a dot (`"." in resource`). -/
def containsDot (s : String) : Bool := s.data.contains '.'

/-- The tail module name `FileFinder.find_spec` extracts from a dotted
fullname (`fullname.rpartition('.')[2]`). -/
def lastComponent (s : String) : String := (splitDots s).getLastD s

/-- State of a `SplitFileFinder`: the `is_loading` flag of the
`SplitModuleLoader` it was constructed with, and the directory view of its
`FileFinder`. -/
structure SplitFileFinderS where
  loader_isLoading : Bool
  fsRoot : String → Option Fragment

/-- Model of `SplitFileFinder.find_spec`: delegate to the wrapped
`FileFinder`, whose loader for the session suffix is the split loader.
The source consults only the `FileFinder`; the `loader_isLoading` field is
not read. -/
def SplitFileFinderS.findSpec (f : SplitFileFinderS) (fullname : String) :
    Option (Fragment × LoaderRef) :=
  (f.fsRoot (lastComponent fullname)).map (fun fr => (fr, .split))

/-- State of a `SplitModuleFinder`: the `is_loading` flag of its split
loader. -/
structure SplitModuleFinderS where
  loader_isLoading : Bool

/-- Model of `SplitModuleFinder.find_spec`: return `None` while the split
loader is executing a fragment; otherwise resolve through the host chain
(`PathFinder.find_spec`) and replace the loader of the found spec with the
split loader. -/
def SplitModuleFinderS.findSpec (f : SplitModuleFinderS)
    (hostFind : String → Option Fragment) (fullname : String) :
    Option (Fragment × LoaderRef) :=
  if f.loader_isLoading then none
  else (hostFind fullname).map (fun fr => (fr, .split))

/-- The attributes the import system gives a freshly created module before
its code runs (`create_module` returning `None` means default module
creation). -/
def initModuleAttrs (fullname origin : String) : List (String × Value) :=
  [("__name__", .vstr fullname), ("__file__", .vstr origin)]

/-- A module created for a fragment loaded by the split loader: its code
runs in the caller's scope, not in the module's own namespace, so the
namespace keeps only the initial attributes; both loader slots point at
the split loader. -/
def mkSplitModule (fullname origin : String) : Module :=
  ⟨.split, .split, initModuleAttrs fullname origin⟩

/-- A module loaded by the host's own machinery: its code runs in its own
namespace, and its loader slots hold the host loader. -/
def hostLoadModule (fullname : String) (frag : Fragment) :
    Module × Option PyErr :=
  match execStmts frag.stmts (initModuleAttrs fullname frag.path) with
  | (ns, none) => (⟨.source, .source, ns⟩, none)
  | (ns, some e) => (⟨.source, .source, ns⟩, some e)

/-- Model of `import_module(parent)` through the unmodified host chain:
return the registry entry when cached, otherwise locate and execute the
module and register it, or fail with `ModuleNotFoundError`. -/
def importParent (env : Env) (st : Sys) (parent : String) :
    Sys × Except PyErr Module :=
  match alookup st.modules parent with
  | some m => (st, .ok m)
  | none =>
    match env.hostFind parent with
    | some frag =>
        match hostLoadModule parent frag with
        | (m, none) => ({ st with modules := aset st.modules parent m }, .ok m)
        | (_, some e) => (st, .error e)
    | none => (st, .error ⟨.moduleNotFound, true⟩)

/-- The ancestor substitution in `include()`: save the located module's
`__spec__.loader`, point both `__spec__.loader` and `__loader__` at a
fresh `SplitModuleLoader`, and re-register the module
(`sys.modules[parent] = mod`).  Returns the new state and the saved
original loader. -/
def swapLoader (st : Sys) (parent : String) (m : Module) : Sys × LoaderRef :=
  ({ st with
      modules := aset st.modules parent
        { m with specLoader := .split, dunderLoader := .split } },
    m.specLoader)

/-- Import the parent and perform the loader substitution, propagating the
`mod`/`loader` locals that the `finally` clause of `include()` reads. -/
def parentSwap (env : Env) (st : Sys) (parent : String) :
    Sys × Option (String × LoaderRef) × Option PyErr :=
  match importParent env st parent with
  | (st1, .ok m) =>
      let p := swapLoader st1 parent m
      (p.1, some (parent, p.2), none)
  | (st1, .error e) => (st1, none, some e)

/-- Model of the `_load_file_path_as_module` context manager.  It is a
generator-based `@contextmanager` whose cleanup lines sit after the
`yield` with no `try`/`finally`: install the path hook and the `sys.path`
entry, run the body; when the body returns normally the hook and the path
entry are removed again, but when the body raises, the exception is thrown
into the generator at the `yield` point and the cleanup lines never run,
so the hook and the path entry stay installed. -/
def withLoadFilePath {α : Type} (root : String) (st : Sys)
    (body : Sys → Sys × α × Option PyErr) : Sys × α × Option PyErr :=
  let st1 := { st with pathHooks := st.pathHooks + 1,
                       sysPath := st.sysPath ++ [root] }
  match body st1 with
  | (st2, a, none) =>
      ({ st2 with pathHooks := st2.pathHooks - 1,
                  sysPath := st2.sysPath.erase root }, a, none)
  | (st2, a, some e) => (st2, a, some e)

/-- Model of the `with SplitFinder(...)` statement: `__enter__` inserts
the finder at the front of `sys.meta_path`, and `__exit__` removes it on
both the normal and the exceptional exit (a genuine `with` statement). -/
def withSplitFinder {α : Type} (st : Sys)
    (body : Sys → Sys × α × Option PyErr) : Sys × α × Option PyErr :=
  let st1 := { st with metaPath := st.metaPath + 1 }
  match body st1 with
  | (st2, a, e) => ({ st2 with metaPath := st2.metaPath - 1 }, a, e)

/-- Registering a found fragment's module and executing it with the split
loader; on failure the import machinery removes the partially initialised
module from the registry again.  Returns the state, the scope, the final
`is_loading` flag of the session's split loader, and the error. -/
def splitLoad (st : Sys) (scope : Scope) (fullname : String)
    (frag : Fragment) : Sys × (Scope × Option Bool) × Option PyErr :=
  let st1 := { st with
      modules := aset st.modules fullname (mkSplitModule fullname frag.path) }
  match execModule frag scope with
  | (sc1, loading, none) => (st1, (sc1, some loading), none)
  | (sc1, loading, some e) =>
      ({ st1 with modules := aremove st1.modules fullname },
        (sc1, some loading), some e)

/-- Model of `import_module(fullname)` while a `SplitFileFinder` session
is on `sys.meta_path`: a cached module is returned untouched (its code is
not re-run and the scope is not touched); otherwise the split finder is
consulted first, then the host chain (`PathFinder` over the parent's
`__path__` and the default path hooks), which loads the module normally —
into its own namespace, not into the scope; if nobody finds it, the import
fails. -/
def importSplitFile (env : Env) (st : Sys) (scope : Scope)
    (fullname : String) : Sys × (Scope × Option Bool) × Option PyErr :=
  match alookup st.modules fullname with
  | some _ => (st, (scope, some false), none)
  | none =>
    match SplitFileFinderS.findSpec ⟨false, env.fsRoot⟩ fullname with
    | some (frag, _) => splitLoad st scope fullname frag
    | none =>
        match env.hostFind fullname with
        | some frag =>
            match hostLoadModule fullname frag with
            | (m, none) =>
                ({ st with modules := aset st.modules fullname m },
                  (scope, some false), none)
            | (_, some e) => (st, (scope, some false), some e)
        | none => (st, (scope, some false), some ⟨.moduleNotFound, true⟩)

/-- Model of `import_module(fullname)` while a `SplitModuleFinder` session
is on `sys.meta_path`: a cached module is returned untouched; otherwise
the split finder resolves through the host chain and substitutes the split
loader, so the found fragment executes into the scope.  When the split
finder (which wraps `PathFinder`) finds nothing, no later finder can
either. -/
def importSplitModule (env : Env) (st : Sys) (scope : Scope)
    (fullname : String) : Sys × (Scope × Option Bool) × Option PyErr :=
  match alookup st.modules fullname with
  | some _ => (st, (scope, some false), none)
  | none =>
    match SplitModuleFinderS.findSpec ⟨false⟩ env.hostFind fullname with
    | some (frag, _) => splitLoad st scope fullname frag
    | none => (st, (scope, some false), some ⟨.moduleNotFound, true⟩)

/-- Join name segments with dots (`".".join(...)`). -/
def joinDots : List String → String
  | [] => ""
  | [s] => s
  | s :: rest => s ++ "." ++ joinDots rest

/-- The key `use_loaded` checks for a path resource:
`".".join(resource.parts)` — note it includes the file suffix. -/
def dottedKey (dirs : List String) (stem sfx : String) : String :=
  joinDots (dirs ++ [stem ++ sfx])

/-- The name finally imported for a path resource:
`f"{parent}.{resource.stem}".lstrip(".")`. -/
def pathFullname (dirs : List String) (stem : String) : String :=
  if dirs.isEmpty then stem else joinDots dirs ++ "." ++ stem

/-- The parent of a dotted name: `".".join(resource.split(".")[0:-1])`. -/
def parentName (s : String) : String := joinDots ((splitDots s).dropLast)

/-- Model of `scope.update(vars(module))` in `use_loaded`: write every
attribute of the module into the scope, overwriting same-named
bindings. -/
def updScope (sc : Scope) (kvs : List (String × Value)) : Scope :=
  kvs.foldl (fun s kv => aset s kv.1 kv.2) sc

/-- Result of the `try` body of `include()`: interpreter state, scope, the
final `is_loading` flag of the split loader created for the session (if
one was created), the `mod`/`loader` pair the `finally` clause will read,
and the error about to propagate. -/
structure BodyRes where
  sys : Sys
  scope : Scope
  flag : Option Bool
  saved : Option (String × LoaderRef)
  err : Option PyErr
  deriving DecidableEq

/-- The `try` body of `include()`, transcribed arm by arm: classify the
resource; check `use_loaded` (merge a cached module's namespace into the
scope and return); for a multi-segment reference import the ancestor
through the unmodified chain and substitute its loader (wrapped in
`_load_file_path_as_module` in the path-style branch); then open the split
finder session and trigger the import. -/
def includeBody (env : Env) (sys0 : Sys) (scope0 : Scope)
    (resource : Resource) : BodyRes :=
  match resource with
  | .path dirs stem sfx =>
    match alookup sys0.modules (dottedKey dirs stem sfx) with
    | some m => ⟨sys0, updScope scope0 m.attrs, none, none, none⟩
    | none =>
      let step1 : Sys × Option (String × LoaderRef) × Option PyErr :=
        if dirs.isEmpty then (sys0, none, none)
        else withLoadFilePath env.root sys0
          (fun st => parentSwap env st (joinDots dirs))
      match step1 with
      | (sys1, saved, some e) => ⟨sys1, scope0, none, saved, some e⟩
      | (sys1, saved, none) =>
        match withSplitFinder sys1
            (fun st => importSplitFile env st scope0 (pathFullname dirs stem)) with
        | (sys2, (sc2, flag), err) => ⟨sys2, sc2, flag, saved, err⟩
  | .dotted name =>
    match alookup sys0.modules name with
    | some m => ⟨sys0, updScope scope0 m.attrs, none, none, none⟩
    | none =>
      let step1 : Sys × Option (String × LoaderRef) × Option PyErr :=
        if containsDot name then parentSwap env sys0 (parentName name)
        else (sys0, none, none)
      match step1 with
      | (sys1, saved, some e) => ⟨sys1, scope0, none, saved, some e⟩
      | (sys1, saved, none) =>
        match withSplitFinder sys1
            (fun st => importSplitModule env st scope0 name) with
        | (sys2, (sc2, flag), err) => ⟨sys2, sc2, flag, saved, err⟩

/-- Observable outcome of one `include()` call. -/
structure IncludeRes where
  sys : Sys
  scope : Scope
  loaderFlag : Option Bool
  err : Option PyErr
  deriving DecidableEq

/-- The `finally` clause of `include()`: `if mod and loader:
mod.__spec__.loader = loader` — only `__spec__.loader` is restored, the
`__loader__` attribute is not. -/
def restoreLoader (st : Sys) (saved : Option (String × LoaderRef)) : Sys :=
  match saved with
  | some (p, l) =>
      match alookup st.modules p with
      | some m => { st with modules := aset st.modules p { m with specLoader := l } }
      | none => st
  | none => st

/-- Model of `include(resource, scope, optional)`: run the body; apply the
`except Exception` clause (silence the error exactly when it is an
`Exception` subclass and `optional` is set); then run the `finally`
clause. -/
def include' (env : Env) (sys0 : Sys) (scope0 : Scope) (resource : Resource)
    (optional : Bool) : IncludeRes :=
  let b := includeBody env sys0 scope0 resource
  let err : Option PyErr :=
    match b.err with
    | some e => if optional && e.isExc then none else some e
    | none => none
  ⟨restoreLoader b.sys b.saved, b.scope, b.flag, err⟩

/-- A sequence of non-optional includes of sibling fragment files
(single-segment path resources), stopping at the first propagated
error. -/
def includeSeq (env : Env) (sfx : String) :
    Sys → Scope → List String → Sys × Scope × Option PyErr
  | sys, sc, [] => (sys, sc, none)
  | sys, sc, stem :: rest =>
    let r := include' env sys sc (.path [] stem sfx) false
    match r.err with
    | none => includeSeq env sfx r.sys r.scope rest
    | some e => (r.sys, r.scope, some e)

/-- Model of `set_default(var_name, default, set_if_none)` with the
caller's scope passed explicitly: bind the name to the default when it is
absent, or when it is bound to `None` and `set_if_none` is set; return the
value bound after the update. -/
def set_default (sc : Scope) (n : String) (default : Value)
    (set_if_none : Bool) : Scope × Value :=
  match alookup sc n with
  | none => (aset sc n default, default)
  | some v =>
      if set_if_none = true ∧ v = Value.vnone then (aset sc n default, default)
      else (sc, v)

/-- Model of `is_defined(var_name)` with the caller's scope passed
explicitly. -/
def is_defined (sc : Scope) (n : String) : Bool := (alookup sc n).isSome

/-- Model of `get(var_name, default=_NotGiven)` with the caller's scope
passed explicitly; the `_NotGiven` sentinel becomes `Option.none` for the
default argument. -/
def get (sc : Scope) (n : String) (default : Option Value) :
    Except PyErr Value :=
  match alookup sc n with
  | some v => .ok v
  | none =>
    match default with
    | some d => .ok d
    | none => .error ⟨.nameError, true⟩

/-- An expression avoids a name when it does not read it. -/
def Expr.avoids (k : String) : Expr → Bool
  | .const _ => true
  | .var n => n != k

/-- A statement avoids a name when it neither assigns nor reads it. -/
def Stmt.avoids (k : String) : Stmt → Bool
  | .assign n e => n != k && Expr.avoids k e
  | .raiseSt _ => true

/-- Two scopes agree on every name other than `k`. -/
def AgreeExcept (k : String) (s1 s2 : Scope) : Prop :=
  ∀ n, n ≠ k → alookup s1 n = alookup s2 n

/-- The `__included_files__` entry of a scope, when present, is a list of
locations (so that `stack.append` does not itself raise). -/
def KeyOk (sc : Scope) : Prop :=
  ∀ v, alookup sc includedKey = some v → ∃ ps, v = Value.vpaths ps

/-- The last binding of a key in an attribute list; with dict-update
semantics this is the binding that wins. -/
def lastBind : List (String × Value) → String → Option Value
  | [], _ => none
  | (a, v) :: rest, k =>
      match lastBind rest k with
      | some w => some w
      | none => if a = k then some v else none

/-- The statements of the concatenation of the fragments, in order. -/
def concatFrags (items : List (String × Fragment)) : List Stmt :=
  items.foldr (fun p acc => p.2.stmts ++ acc) []

/-! Concrete fixtures used by the claim-level counterexamples and
witnesses. -/

/-- A fresh interpreter state: empty registry, no engine hooks. -/
def sysEmpty : Sys := ⟨[], 0, [], 0⟩

/-- Fragment `a.py`, binding `X = 1`. -/
def fragA : Fragment := ⟨"a.py", [.assign "X" (.const (.vint 1))]⟩

/-- Environment whose including directory holds only `a.py`. -/
def envA : Env := ⟨"/app", fun n => if n = "a" then some fragA else none,
  fun _ => none⟩

/-- Fragment `p/b.py`, binding `Y = 2`. -/
def fragPB : Fragment := ⟨"p/b.py", [.assign "Y" (.const (.vint 2))]⟩

/-- An empty package `__init__.py`. -/
def fragInit : Fragment := ⟨"p/__init__.py", []⟩

/-- Environment with package `p` and submodule `p.b` reachable through the
host chain, and nothing directly in the including directory. -/
def envPB : Env := ⟨"/app", fun _ => none,
  fun n => if n = "p" then some fragInit
           else if n = "p.b" then some fragPB else none⟩

/-- Environment in which nothing resolves at all. -/
def envNone : Env := ⟨"/app", fun _ => none, fun _ => none⟩

/-- Fragment `f.py` whose only statement raises a `BaseException`-only
error such as `SystemExit`. -/
def fragSysExit : Fragment := ⟨"f.py", [.raiseSt false]⟩

/-- Environment whose including directory holds only `f.py`. -/
def envSysExit : Env :=
  ⟨"/app", fun n => if n = "f" then some fragSysExit else none, fun _ => none⟩

/-- Fragment `g.py` whose only statement raises an ordinary `Exception`. -/
def fragRaise : Fragment := ⟨"g.py", [.raiseSt true]⟩

/-- Environment whose including directory holds only `g.py`. -/
def envRaise : Env :=
  ⟨"/app", fun n => if n = "g" then some fragRaise else none, fun _ => none⟩

/-- Fragment `f5.py`: one assignment, then a raise. -/
def fragF5 : Fragment :=
  ⟨"f5.py", [.assign "A" (.const (.vint 1)), .raiseSt true]⟩

/-- Environment whose including directory holds only `f5.py`. -/
def envF5 : Env :=
  ⟨"/app", fun n => if n = "f5" then some fragF5 else none, fun _ => none⟩

/-- An empty `pkg/__init__.py`. -/
def fragPkgInit : Fragment := ⟨"pkg/__init__.py", []⟩

/-- Fragment `pkg/frag.py`, binding `Z = 3`. -/
def fragPkgFrag : Fragment := ⟨"pkg/frag.py", [.assign "Z" (.const (.vint 3))]⟩

/-- Environment with `pkg` and `pkg.frag` reachable through the host
chain. -/
def envPkg : Env := ⟨"/app", fun _ => none,
  fun n => if n = "pkg" then some fragPkgInit
           else if n = "pkg.frag" then some fragPkgFrag else none⟩

/-- An interpreter state in which package `pkg` is already imported with
its original host loader. -/
def sysPkg : Sys := ⟨[("pkg", ⟨.source, .source, []⟩)], 0, [], 0⟩

/-- Fragment `locale.py`, a sibling file whose name collides with a module
a fragment might import. -/
def fragLocale : Fragment := ⟨"locale.py", [.assign "L" (.const (.vint 0))]⟩

/-- Fragment `da.py`, binding `DEBUG = True`. -/
def fragDebugT : Fragment := ⟨"da.py", [.assign "DEBUG" (.const (.vbool true))]⟩

/-- Fragment `db.py`, binding `DEBUG = False`. -/
def fragDebugF : Fragment := ⟨"db.py", [.assign "DEBUG" (.const (.vbool false))]⟩

/-- Environment whose including directory holds `da.py` and `db.py`. -/
def envDebug : Env := ⟨"/app",
  fun n => if n = "da" then some fragDebugT
           else if n = "db" then some fragDebugF else none,
  fun _ => none⟩

/-- A registered module `cfg` whose namespace carries a dunder attribute
and a setting. -/
def modCfg : Module :=
  ⟨.source, .source, [("__name__", .vstr "cfg"), ("X", .vint 7)]⟩

/-- An interpreter state in which `cfg` is already registered. -/
def sysCfg : Sys := ⟨[("cfg", modCfg)], 0, [], 0⟩

/-! Lemmas about the dict operations. -/

theorem alookup_aset {α : Type} (l : List (String × α)) (n m : String) (v : α) :
    alookup (aset l n v) m = if n = m then some v else alookup l m := by
  induction l with
  | nil => by_cases h : n = m <;> simp [aset, alookup, h]
  | cons hd tl ih =>
    obtain ⟨a, w⟩ := hd
    by_cases h1 : a = n
    · subst h1
      by_cases h2 : a = m <;> simp [aset, alookup, h2]
    · by_cases h2 : a = m
      · subst h2
        have hnm : ¬n = a := fun he => h1 he.symm
        simp [aset, alookup, h1, hnm]
      · simp [aset, alookup, h1, h2, ih]

theorem alookup_aremove {α : Type} (l : List (String × α)) (k n : String)
    (h : k ≠ n) : alookup (aremove l k) n = alookup l n := by
  induction l with
  | nil => rfl
  | cons hd tl ih =>
    obtain ⟨a, w⟩ := hd
    by_cases h1 : a = k
    · subst h1
      have han : ¬a = n := fun he => h (he ▸ rfl)
      simp [aremove, alookup, han]
    · simp [aremove, alookup, h1, ih]

theorem alookup_updScope (kvs : List (String × Value)) :
    ∀ (sc : Scope) (k : String),
      alookup (updScope sc kvs) k =
        match lastBind kvs k with
        | some v => some v
        | none => alookup sc k := by
  induction kvs with
  | nil => intro sc k; rfl
  | cons hd tl ih =>
    intro sc k
    obtain ⟨a, v⟩ := hd
    have hstep : updScope sc ((a, v) :: tl) = updScope (aset sc a v) tl := rfl
    rw [hstep, ih]
    cases hlb : lastBind tl k with
    | some w => simp [lastBind, hlb]
    | none =>
      by_cases hak : a = k <;> simp [lastBind, hlb, alookup_aset, hak]

/-! Lemmas about scope agreement away from the bookkeeping key. -/

theorem agreeExcept_refl (k : String) (s : Scope) : AgreeExcept k s s :=
  fun _ _ => rfl

theorem AgreeExcept.aset_both (k : String) {s1 s2 : Scope} (n : String)
    (v : Value) (h : AgreeExcept k s1 s2) :
    AgreeExcept k (aset s1 n v) (aset s2 n v) := by
  intro x hx
  rw [alookup_aset, alookup_aset]
  by_cases hnx : n = x
  · simp [hnx]
  · simp [hnx, h x hx]

theorem AgreeExcept.aset_key (k : String) {s1 s2 : Scope} (v : Value)
    (h : AgreeExcept k s1 s2) : AgreeExcept k (aset s1 k v) s2 := by
  intro x hx
  rw [alookup_aset]
  have hkx : ¬k = x := fun he => hx he.symm
  simp [hkx, h x hx]

/-! Lemmas about fragment execution. -/

theorem execStmts_append (a b : List Stmt) :
    ∀ sc : Scope,
      execStmts (a ++ b) sc =
        match execStmts a sc with
        | (sc1, none) => execStmts b sc1
        | (sc1, some e) => (sc1, some e) := by
  induction a with
  | nil => intro sc; rfl
  | cons hd tl ih =>
    intro sc
    cases hd with
    | assign n e =>
      cases hv : Expr.eval sc e with
      | some v => simp [execStmts, hv, ih]
      | none => simp [execStmts, hv]
    | raiseSt bb => simp [execStmts]

theorem execStmts_agree (k : String) :
    ∀ (l : List Stmt) (s1 s2 : Scope),
      l.all (Stmt.avoids k) = true →
      AgreeExcept k s1 s2 →
      AgreeExcept k (execStmts l s1).1 (execStmts l s2).1 ∧
        (execStmts l s1).2 = (execStmts l s2).2 := by
  intro l
  induction l with
  | nil => intro s1 s2 _ hag; exact ⟨hag, rfl⟩
  | cons hd tl ih =>
    intro s1 s2 hall hag
    rw [List.all_cons, Bool.and_eq_true] at hall
    obtain ⟨hhd, htl⟩ := hall
    cases hd with
    | raiseSt b => exact ⟨hag, rfl⟩
    | assign n e =>
      cases e with
      | const v =>
        simpa [execStmts, Expr.eval] using
          ih (aset s1 n v) (aset s2 n v) htl (hag.aset_both k n v)
      | var m =>
        have hm : m ≠ k := by
          simp [Stmt.avoids, Expr.avoids] at hhd
          exact hhd.2
        have heq : alookup s1 m = alookup s2 m := hag m hm
        cases hv : alookup s2 m with
        | none =>
          simp only [execStmts, Expr.eval, heq, hv]
          exact ⟨hag, trivial⟩
        | some v =>
          simpa [execStmts, Expr.eval, heq, hv] using
            ih (aset s1 n v) (aset s2 n v) htl (hag.aset_both k n v)

theorem execModuleBody_agree (f : Fragment) (ps : List String) (sc0 s2 : Scope)
    (hav : f.stmts.all (Stmt.avoids includedKey) = true)
    (hag0 : AgreeExcept includedKey sc0 s2) :
    AgreeExcept includedKey (execModuleBody f ps sc0).1 (execStmts f.stmts s2).1 ∧
      (execModuleBody f ps sc0).2.2 = (execStmts f.stmts s2).2 := by
  have h := execStmts_agree includedKey f.stmts sc0 s2 hav hag0
  unfold execModuleBody
  rcases hx : execStmts f.stmts sc0 with ⟨sc1, e1⟩
  rw [hx] at h
  obtain ⟨hagr, herr⟩ := h
  cases e1 with
  | none => exact ⟨hagr.aset_key includedKey _, herr.symm ▸ rfl⟩
  | some e => exact ⟨hagr, herr.symm ▸ rfl⟩

theorem execModule_agree (f : Fragment) (s1 s2 : Scope)
    (hav : f.stmts.all (Stmt.avoids includedKey) = true)
    (hkey : KeyOk s1) (hag : AgreeExcept includedKey s1 s2) :
    AgreeExcept includedKey (execModule f s1).1 (execStmts f.stmts s2).1 ∧
      (execModule f s1).2.2 = (execStmts f.stmts s2).2 := by
  unfold execModule
  cases hl : alookup s1 includedKey with
  | none => exact execModuleBody_agree f _ s1 s2 hav hag
  | some v =>
    obtain ⟨ps, rfl⟩ := hkey v hl
    exact execModuleBody_agree f _ _ s2 hav (hag.aset_key includedKey _)

theorem execModuleBody_keyOk (f : Fragment) (ps : List String) (sc0 : Scope)
    (h : (execModuleBody f ps sc0).2.2 = none) :
    KeyOk (execModuleBody f ps sc0).1 := by
  unfold execModuleBody at h ⊢
  generalize hx : execStmts f.stmts sc0 = r at h ⊢
  obtain ⟨sc1, e1⟩ := r
  cases e1 with
  | none =>
    show KeyOk (aset sc1 includedKey (Value.vpaths ps))
    intro v hv
    rw [alookup_aset] at hv
    simp at hv
    exact ⟨_, hv.symm⟩
  | some e => simp at h

theorem execModule_keyOk (f : Fragment) (sc : Scope)
    (h : (execModule f sc).2.2 = none) : KeyOk (execModule f sc).1 := by
  unfold execModule at h ⊢
  cases hl : alookup sc includedKey with
  | none =>
    rw [hl] at h
    exact execModuleBody_keyOk f _ _ h
  | some v =>
    rw [hl] at h
    cases v with
    | vpaths ps => exact execModuleBody_keyOk f _ _ h
    | vnone => simp at h
    | vbool b => simp at h
    | vint n => simp at h
    | vstr s => simp at h

/-! Evaluation lemmas for `includeBody`. -/

theorem includeBody_single (env : Env) (sys : Sys) (sc : Scope)
    (s sfx : String) (f : Fragment)
    (hkey : alookup sys.modules (s ++ sfx) = none)
    (hcache : alookup sys.modules s = none)
    (hcov : env.fsRoot (lastComponent s) = some f) :
    includeBody env sys sc (.path [] s sfx) =
      ⟨{ sys with modules :=
           if (execModule f sc).2.2 = none
           then aset sys.modules s (mkSplitModule s f.path)
           else aremove (aset sys.modules s (mkSplitModule s f.path)) s },
        (execModule f sc).1, some (execModule f sc).2.1, none,
        (execModule f sc).2.2⟩ := by
  rcases hx : execModule f sc with ⟨sc1, loading, e⟩
  cases e with
  | none =>
    simp only [includeBody, dottedKey, List.nil_append, joinDots, hkey,
      List.isEmpty_nil, if_true, withSplitFinder, importSplitFile,
      pathFullname, hcache, SplitFileFinderS.findSpec, hcov, Option.map_some,
      splitLoad, hx]
    simp [hx, Nat.add_sub_cancel]
  | some err =>
    simp only [includeBody, dottedKey, List.nil_append, joinDots, hkey,
      List.isEmpty_nil, if_true, withSplitFinder, importSplitFile,
      pathFullname, hcache, SplitFileFinderS.findSpec, hcov, Option.map_some,
      splitLoad, hx]
    simp [hx, Nat.add_sub_cancel]

theorem includeBody_missing (env : Env) (sys : Sys) (sc : Scope)
    (dirs : List String) (stem sfx : String)
    (hkey : alookup sys.modules (dottedKey dirs stem sfx) = none)
    (hcache : alookup sys.modules (pathFullname dirs stem) = none)
    (hfs : env.fsRoot (lastComponent (pathFullname dirs stem)) = none)
    (hhost : env.hostFind (pathFullname dirs stem) = none)
    (hne : joinDots dirs ≠ pathFullname dirs stem)
    (hpar : dirs ≠ [] →
      (∃ m, alookup sys.modules (joinDots dirs) = some m) ∨
        env.hostFind (joinDots dirs) = none) :
    (includeBody env sys sc (.path dirs stem sfx)).scope = sc ∧
      (includeBody env sys sc (.path dirs stem sfx)).err =
        some ⟨.moduleNotFound, true⟩ := by
  by_cases hd : dirs.isEmpty
  · simp only [includeBody, hkey, hd, if_true, withSplitFinder,
      importSplitFile, hcache, SplitFileFinderS.findSpec, hfs,
      Option.map_none, hhost]
    exact ⟨rfl, rfl⟩
  · have hdirs : dirs ≠ [] := by
      intro hc
      rw [hc] at hd
      exact hd rfl
    rcases hp : alookup sys.modules (joinDots dirs) with _ | m
    · rcases hpar hdirs with ⟨m, hm⟩ | hnf
      · rw [hp] at hm
        exact Option.noConfusion hm
      · simp only [includeBody, hkey, hd, if_false, withLoadFilePath,
          parentSwap, importParent, hp, hnf]
        exact ⟨rfl, rfl⟩
    · have hcache2 : alookup
          (aset sys.modules (joinDots dirs)
            { m with specLoader := LoaderRef.split,
                     dunderLoader := LoaderRef.split })
          (pathFullname dirs stem) = none := by
        rw [alookup_aset]
        simp [hne, hcache]
      simp only [includeBody, hkey, hd, if_false, withLoadFilePath,
        parentSwap, importParent, hp, swapLoader, withSplitFinder,
        importSplitFile, hcache2, SplitFileFinderS.findSpec, hfs,
        Option.map_none, hhost]
      simp [hcache2]

theorem include'_eq (env : Env) (sys : Sys) (sc : Scope) (r : Resource)
    (opt : Bool) :
    include' env sys sc r opt =
      ⟨restoreLoader (includeBody env sys sc r).sys
          (includeBody env sys sc r).saved,
        (includeBody env sys sc r).scope,
        (includeBody env sys sc r).flag,
        match (includeBody env sys sc r).err with
        | some e => if opt && e.isExc then none else some e
        | none => none⟩ := rfl

theorem include'_nonopt (env : Env) (sys : Sys) (sc : Scope) (r : Resource) :
    include' env sys sc r false =
      ⟨restoreLoader (includeBody env sys sc r).sys
          (includeBody env sys sc r).saved,
        (includeBody env sys sc r).scope,
        (includeBody env sys sc r).flag,
        (includeBody env sys sc r).err⟩ := by
  rw [include'_eq]
  cases h : (includeBody env sys sc r).err <;> simp [h]

/-- Core of the claim C1 argument: under freshness of the fragment names,
a sequence of single-segment includes agrees — away from the
`__included_files__` bookkeeping entry — with executing the concatenated
fragment statements as one unit, and both runs fail in exactly the same
way. -/
theorem includeSeq_concat (env : Env) (sfx : String) :
    ∀ (items : List (String × Fragment)) (sys : Sys) (sc scC : Scope),
      (∀ p ∈ items, env.fsRoot (lastComponent p.1) = some p.2) →
      (∀ p ∈ items, p.2.stmts.all (Stmt.avoids includedKey) = true) →
      (∀ p ∈ items, alookup sys.modules p.1 = none ∧
        alookup sys.modules (p.1 ++ sfx) = none) →
      (items.map Prod.fst).Nodup →
      (∀ p ∈ items, ∀ q ∈ items, p.1 ++ sfx ≠ q.1) →
      KeyOk sc →
      AgreeExcept includedKey sc scC →
      AgreeExcept includedKey
          (includeSeq env sfx sys sc (items.map Prod.fst)).2.1
          (execStmts (concatFrags items) scC).1 ∧
        (includeSeq env sfx sys sc (items.map Prod.fst)).2.2 =
          (execStmts (concatFrags items) scC).2 := by
  intro items
  induction items with
  | nil =>
    intro sys sc scC _ _ _ _ _ _ hag
    exact ⟨hag, rfl⟩
  | cons hd tl ih =>
    intro sys sc scC hcov hav hfresh hnodup hcross hkey hag
    obtain ⟨s, f⟩ := hd
    have hcovh : env.fsRoot (lastComponent s) = some f :=
      hcov (s, f) (by simp)
    have havh : f.stmts.all (Stmt.avoids includedKey) = true :=
      hav (s, f) (by simp)
    have hfr := hfresh (s, f) (by simp)
    have hb := includeBody_single env sys sc s sfx f hfr.2 hfr.1 hcovh
    rcases hx : execModule f sc with ⟨sc1, fl, e⟩
    have hM1 : AgreeExcept includedKey sc1 (execStmts f.stmts scC).1 := by
      have h := (execModule_agree f sc scC havh hkey hag).1
      rwa [hx] at h
    have hM2 : e = (execStmts f.stmts scC).2 := by
      have h := (execModule_agree f sc scC havh hkey hag).2
      rwa [hx] at h
    have hcat : concatFrags ((s, f) :: tl) = f.stmts ++ concatFrags tl := rfl
    rcases hy : execStmts f.stmts scC with ⟨scC1, eC⟩
    have heC : e = eC := by rw [hM2, hy]
    subst heC
    have happ :
        execStmts (concatFrags ((s, f) :: tl)) scC =
          match (scC1, e) with
          | (sc1, none) => execStmts (concatFrags tl) sc1
          | (sc1, some err) => (sc1, some err) := by
      rw [hcat, execStmts_append, hy]
    rw [hy] at hM1
    cases e with
    | none =>
      have hr : include' env sys sc (.path [] s sfx) false =
          ⟨{ sys with modules := aset sys.modules s (mkSplitModule s f.path) },
            sc1, some fl, none⟩ := by
        rw [include'_nonopt, hb]
        simp [restoreLoader, hx]
      have hstep :
          includeSeq env sfx sys sc (((s, f) :: tl).map Prod.fst) =
            includeSeq env sfx
              { sys with modules := aset sys.modules s (mkSplitModule s f.path) }
              sc1 (tl.map Prod.fst) := by
        simp only [List.map_cons, includeSeq, hr]
      rw [hstep, happ]
      have hkey1 : KeyOk sc1 := by
        have h := execModule_keyOk f sc (by rw [hx])
        rwa [hx] at h
      refine ih _ sc1 scC1 ?_ ?_ ?_ ?_ ?_ hkey1 hM1
      · intro p hp
        exact hcov p (List.mem_cons_of_mem _ hp)
      · intro p hp
        exact hav p (List.mem_cons_of_mem _ hp)
      · intro p hp
        have hne1 : p.1 ≠ s := by
          intro hc
          rw [List.map_cons, List.nodup_cons] at hnodup
          apply hnodup.1
          rw [← hc]
          exact List.mem_map.mpr ⟨p, hp, rfl⟩
        have hne2 : p.1 ++ sfx ≠ s :=
          hcross p (List.mem_cons_of_mem _ hp) (s, f) (List.mem_cons_self _ _)
        have hf := hfresh p (List.mem_cons_of_mem _ hp)
        constructor
        · rw [alookup_aset, if_neg (fun hc => hne1 hc.symm)]
          exact hf.1
        · rw [alookup_aset, if_neg (fun hc => hne2 hc.symm)]
          exact hf.2
      · rw [List.map_cons, List.nodup_cons] at hnodup
        exact hnodup.2
      · intro p hp q hq
        exact hcross p (List.mem_cons_of_mem _ hp) q (List.mem_cons_of_mem _ hq)
    | some err =>
      have hr : include' env sys sc (.path [] s sfx) false =
          ⟨{ sys with modules :=
               aremove (aset sys.modules s (mkSplitModule s f.path)) s },
            sc1, some fl, some err⟩ := by
        rw [include'_nonopt, hb]
        simp [restoreLoader, hx]
      have hstep :
          includeSeq env sfx sys sc (((s, f) :: tl).map Prod.fst) =
            ({ sys with modules :=
                 aremove (aset sys.modules s (mkSplitModule s f.path)) s },
              sc1, some err) := by
        simp only [List.map_cons, includeSeq, hr]
      rw [hstep, happ]
      exact ⟨hM1, rfl⟩

/-! Claim-level theorems. -/

/-- Claim C7, counterexample: the claim says that while a fragment is
executing (`is_loading` true) both resolvers consult the flag and never
intercept a nested resolution.  The path-style resolver
(`SplitFileFinder.find_spec`) does not consult the flag: with the flag
true and a sibling file `locale.py` in the session directory, it still
intercepts the name `locale` and would redirect it into the scope. -/
theorem C7_counterexample :
    SplitFileFinderS.findSpec
        ⟨true, fun n => if n = "locale" then some fragLocale else none⟩
        "locale" = some (fragLocale, .split) := by decide

/-- Claim C7, amended: only the dotted-name resolver
(`SplitModuleFinder.find_spec`) consults the `is_loading` flag and
suppresses interception of nested resolutions; the path-style resolver
(`SplitFileFinder.find_spec`) ignores the flag entirely — its result does
not depend on it, so it intercepts matching names even while a fragment is
executing. -/
theorem C7_amended (hostFind : String → Option Fragment) (fullname : String)
    (fs : String → Option Fragment) (b1 b2 : Bool) :
    SplitModuleFinderS.findSpec ⟨true⟩ hostFind fullname = none ∧
      SplitFileFinderS.findSpec ⟨b1, fs⟩ fullname =
        SplitFileFinderS.findSpec ⟨b2, fs⟩ fullname :=
  ⟨rfl, rfl⟩

/-- Claim C8: `set_default(name, default, set_if_none)` binds `name` to
`default` exactly when `name` is absent, or present, bound to the null
value, with `set_if_none` set; in every other case the existing binding is
kept; and the call returns the value bound to `name` after the update. -/
theorem C8_set_default (sc : Scope) (n : String) (d : Value) (b : Bool) :
    alookup (set_default sc n d b).1 n =
        (if alookup sc n = none ∨ (b = true ∧ alookup sc n = some Value.vnone)
         then some d else alookup sc n) ∧
      some (set_default sc n d b).2 = alookup (set_default sc n d b).1 n := by
  unfold set_default
  cases h : alookup sc n with
  | none => simp [h, alookup_aset]
  | some v =>
    by_cases hb : b = true ∧ v = Value.vnone
    · simp [h, hb, alookup_aset]
    · have hcond : ¬(b = true ∧ some v = some Value.vnone) := by
        intro hc
        exact hb ⟨hc.1, Option.some.inj hc.2⟩
      simp [h, hb, hcond]

/-- Claim C9: `get(name, default)` returns the bound value when `name` is
bound; it fails with an undefined-name error exactly when `name` is
unbound and no default was supplied; and it returns the default when
`name` is unbound and one was supplied. -/
theorem C9_get (sc : Scope) (n : String) (d : Option Value) :
    (∀ v, alookup sc n = some v → get sc n d = .ok v) ∧
      ((∃ e, get sc n d = .error e) ↔ alookup sc n = none ∧ d = none) ∧
      (∀ dv, alookup sc n = none → d = some dv → get sc n d = .ok dv) := by
  cases h : alookup sc n with
  | some v =>
    refine ⟨?_, ?_, ?_⟩
    · intro w hw
      have hvw : v = w := Option.some.inj hw
      subst hvw
      simp [get, h]
    · constructor
      · rintro ⟨e, he⟩
        simp [get, h] at he
      · rintro ⟨hn, _⟩
        exact Option.noConfusion hn
    · intro dv hn _
      exact Option.noConfusion hn
  | none =>
    cases d with
    | some dv =>
      refine ⟨?_, ?_, ?_⟩
      · intro w hw
        exact Option.noConfusion hw
      · constructor
        · rintro ⟨e, he⟩
          simp [get, h] at he
        · rintro ⟨_, hd⟩
          exact Option.noConfusion hd
      · intro dv2 _ hd
        have : dv = dv2 := Option.some.inj hd
        subst this
        simp [get, h]
    | none =>
      refine ⟨?_, ?_, ?_⟩
      · intro w hw
        exact Option.noConfusion hw
      · exact ⟨fun _ => ⟨rfl, rfl⟩, fun _ => ⟨⟨.nameError, true⟩, by simp [get, h]⟩⟩
      · intro dv hn hd
        exact Option.noConfusion hd

/-- Witness for claim C9 at a concrete scope. -/
theorem C9_witness : get [("X", Value.vint 3)] "X" none = .ok (Value.vint 3) :=
  (C9_get [("X", Value.vint 3)] "X" none).1 (Value.vint 3) (by decide)

/-- Claim C10: a dotted-name `include()` whose module is already in
`sys.modules` merges every attribute of the registered module into the
scope (later attributes overwrite same-named bindings, and attributes
shadow existing scope entries), touches nothing else, creates no loader,
and returns without executing the fragment's source. -/
theorem C10_use_loaded (env : Env) (sys : Sys) (sc : Scope) (name : String)
    (m : Module) (opt : Bool) (h : alookup sys.modules name = some m) :
    include' env sys sc (.dotted name) opt =
        ⟨sys, updScope sc m.attrs, none, none⟩ ∧
      (∀ k v, lastBind m.attrs k = some v →
        alookup (include' env sys sc (.dotted name) opt).scope k = some v) ∧
      (∀ k, lastBind m.attrs k = none →
        alookup (include' env sys sc (.dotted name) opt).scope k =
          alookup sc k) := by
  have hb : includeBody env sys sc (.dotted name) =
      ⟨sys, updScope sc m.attrs, none, none, none⟩ := by
    simp only [includeBody, h]
  have hinc : include' env sys sc (.dotted name) opt =
      ⟨sys, updScope sc m.attrs, none, none⟩ := by
    rw [include'_eq, hb]
    rfl
  refine ⟨hinc, ?_, ?_⟩
  · intro k v hv
    rw [hinc]
    show alookup (updScope sc m.attrs) k = some v
    rw [alookup_updScope, hv]
  · intro k hv
    rw [hinc]
    show alookup (updScope sc m.attrs) k = alookup sc k
    rw [alookup_updScope, hv]

/-- Witness for claim C10: including the registered module `cfg` merges
its namespace, overwriting the caller's `__name__` binding. -/
theorem C10_witness :
    include' envNone sysCfg [("__name__", Value.vstr "caller"), ("Y", Value.vint 1)]
        (.dotted "cfg") false =
      ⟨sysCfg, updScope [("__name__", Value.vstr "caller"), ("Y", Value.vint 1)]
        modCfg.attrs, none, none⟩ ∧
      alookup (include' envNone sysCfg
          [("__name__", Value.vstr "caller"), ("Y", Value.vint 1)]
          (.dotted "cfg") false).scope "__name__" = some (Value.vstr "cfg") :=
  ⟨(C10_use_loaded envNone sysCfg _ "cfg" modCfg false (by decide)).1,
    (C10_use_loaded envNone sysCfg _ "cfg" modCfg false (by decide)).2.1
      "__name__" (Value.vstr "cfg") (by decide)⟩

/-- Claim C3, counterexample: the claim says `optional=True` converts
every kind of exception into a silent no-op.  A fragment raising a
`BaseException`-only error (e.g. `SystemExit`) is not caught by the
`except Exception` clause, so it propagates even with `optional=True`. -/
theorem C3_counterexample :
    (include' envSysExit sysEmpty [] (.path [] "f" ".py") true).err =
      some ⟨.execError, false⟩ := by decide

/-- Claim C3, amended: with `optional=False` every error of the body
propagates unchanged; with `optional=True` the errors deriving from
`Exception` are silenced (and nothing else about the outcome changes),
while `BaseException`-only errors such as `SystemExit` propagate even with
`optional=True`. -/
theorem C3_amended (env : Env) (sys : Sys) (sc : Scope) (r : Resource) :
    ((include' env sys sc r false).err = (includeBody env sys sc r).err) ∧
      ((include' env sys sc r true).scope = (include' env sys sc r false).scope) ∧
      ((include' env sys sc r true).sys = (include' env sys sc r false).sys) ∧
      (∀ e, (includeBody env sys sc r).err = some e → e.isExc = true →
        (include' env sys sc r true).err = none) ∧
      (∀ e, (includeBody env sys sc r).err = some e → e.isExc = false →
        (include' env sys sc r true).err = some e) := by
  refine ⟨?_, rfl, rfl, ?_, ?_⟩
  · rw [include'_nonopt]
  · intro e he hexc
    simp [include'_eq, he, hexc]
  · intro e he hexc
    simp [include'_eq, he, hexc]

/-- Witness for claim C3: an `Exception`-kind failure inside the fragment
is silenced by `optional=True`. -/
theorem C3_witness :
    (includeBody envRaise sysEmpty [] (.path [] "g" ".py")).err =
        some ⟨.execError, true⟩ ∧
      (⟨ErrKind.execError, true⟩ : PyErr).isExc = true ∧
      (include' envRaise sysEmpty [] (.path [] "g" ".py") true).err = none :=
  ⟨by decide, by decide,
    (C3_amended envRaise sysEmpty [] (.path [] "g" ".py")).2.2.2.1
      ⟨.execError, true⟩ (by decide) (by decide)⟩

/-- Claim C1, counterexample: the final scope of a sequence of includes is
not identical to the scope produced by executing the concatenated
fragments as one unit.  First, `include()` records the fragment location
under `__included_files__`, which plain execution of the concatenation
does not.  Second, for a multi-segment slash path the engine's file finder
looks the tail module up directly in the including directory, misses, and
the host chain loads the fragment as an ordinary module into its own
namespace: the include succeeds without any error, yet the fragment's
binding `Y = 2` never reaches the scope. -/
theorem C1_counterexample :
    alookup (include' envA sysEmpty [] (.path [] "a" ".py") false).scope
        includedKey ≠ alookup (execStmts fragA.stmts []).1 includedKey ∧
      ((include' envPB sysEmpty [] (.path ["p"] "b" ".py") false).err = none ∧
        alookup (include' envPB sysEmpty [] (.path ["p"] "b" ".py") false).scope
          "Y" = none ∧
        alookup (execStmts fragPB.stmts []).1 "Y" = some (.vint 2)) := by
  decide

/-- Witness for claim C1 at the spec's own end-to-end example: a fragment
binding `DEBUG = True` followed by one binding `DEBUG = False`, included
in order into an initially empty scope, agrees with the concatenated run
(`DEBUG` ends up `False`: last write wins). -/
theorem C1_witness :
    AgreeExcept includedKey
        (includeSeq envDebug ".py" sysEmpty []
          ([("da", fragDebugT), ("db", fragDebugF)].map Prod.fst)).2.1
        (execStmts (concatFrags [("da", fragDebugT), ("db", fragDebugF)]) []).1 ∧
      (includeSeq envDebug ".py" sysEmpty []
          ([("da", fragDebugT), ("db", fragDebugF)].map Prod.fst)).2.2 =
        (execStmts (concatFrags [("da", fragDebugT), ("db", fragDebugF)]) []).2 :=
  includeSeq_concat envDebug ".py" [("da", fragDebugT), ("db", fragDebugF)]
    sysEmpty [] [] (by decide) (by decide) (by decide) (by decide) (by decide)
    (fun v hv => Option.noConfusion hv) (fun n _ => rfl)

/-- Claim C2 (code bug): `_load_file_path_as_module` is a
generator-based context manager with no `try`/`finally`, so when the body
raises (here: the ancestor package `nopkg` cannot be imported) the
path hook and the `sys.path` entry installed by the session are never
removed — after `include()` propagates the error, one engine path hook and
the appended root are still installed, although the call started with
none. -/
theorem C2_bug :
    sysEmpty.pathHooks = 0 ∧ sysEmpty.sysPath = [] ∧
      (include' envNone sysEmpty [] (.path ["nopkg"] "frag" ".py") false).err =
        some ⟨.moduleNotFound, true⟩ ∧
      (include' envNone sysEmpty [] (.path ["nopkg"] "frag" ".py")
        false).sys.pathHooks = 1 ∧
      (include' envNone sysEmpty [] (.path ["nopkg"] "frag" ".py")
        false).sys.sysPath = ["/app"] := by
  decide

/-- Claim C4: including a path that resolves to no artifact (not cached in
the registry, not in the session directory, not reachable through the host
chain, and — for multi-segment paths — with the ancestor either already
imported or missing as well) leaves the scope exactly as it was; with
`optional=True` nothing is raised, with `optional=False` a
`ModuleNotFoundError` propagates. -/
theorem C4_missing (env : Env) (sys : Sys) (sc : Scope) (dirs : List String)
    (stem sfx : String)
    (hkey : alookup sys.modules (dottedKey dirs stem sfx) = none)
    (hcache : alookup sys.modules (pathFullname dirs stem) = none)
    (hfs : env.fsRoot (lastComponent (pathFullname dirs stem)) = none)
    (hhost : env.hostFind (pathFullname dirs stem) = none)
    (hne : joinDots dirs ≠ pathFullname dirs stem)
    (hpar : dirs ≠ [] →
      (∃ m, alookup sys.modules (joinDots dirs) = some m) ∨
        env.hostFind (joinDots dirs) = none) :
    ((include' env sys sc (.path dirs stem sfx) true).scope = sc ∧
      (include' env sys sc (.path dirs stem sfx) true).err = none) ∧
      ((include' env sys sc (.path dirs stem sfx) false).scope = sc ∧
        (include' env sys sc (.path dirs stem sfx) false).err =
          some ⟨.moduleNotFound, true⟩) := by
  obtain ⟨h1, h2⟩ :=
    includeBody_missing env sys sc dirs stem sfx hkey hcache hfs hhost hne hpar
  refine ⟨⟨?_, ?_⟩, ⟨?_, ?_⟩⟩
  · exact h1
  · simp [include'_eq, h2]
  · exact h1
  · simp [include'_nonopt, h2]

/-- Witness for claim C4 at a concrete missing sibling file. -/
theorem C4_witness :
    ((include' envNone sysEmpty [("K", Value.vint 9)]
          (.path [] "missing" ".py") true).scope = [("K", Value.vint 9)] ∧
      (include' envNone sysEmpty [("K", Value.vint 9)]
          (.path [] "missing" ".py") true).err = none) ∧
      ((include' envNone sysEmpty [("K", Value.vint 9)]
          (.path [] "missing" ".py") false).scope = [("K", Value.vint 9)] ∧
        (include' envNone sysEmpty [("K", Value.vint 9)]
            (.path [] "missing" ".py") false).err =
          some ⟨.moduleNotFound, true⟩) :=
  C4_missing envNone sysEmpty [("K", Value.vint 9)] [] "missing" ".py"
    (by decide) (by decide) (by decide) (by decide) (by decide)
    (fun hc => absurd rfl hc)

/-- Claim C5 (code bug): `exec_module` sets `is_loading = True`, runs the
fragment, and resets the flag only after a successful `exec` — there is no
`finally`.  When the fragment's own statements raise, the error propagates
with the loader's `is_loading` flag still `True`, so the engine does not
return to the idle flag state before the error propagates (the statements
already executed have mutated the scope). -/
theorem C5_bug :
    (include' envF5 sysEmpty [] (.path [] "f5" ".py") false).err =
        some ⟨.execError, true⟩ ∧
      (include' envF5 sysEmpty [] (.path [] "f5" ".py") false).loaderFlag =
        some true ∧
      alookup (include' envF5 sysEmpty [] (.path [] "f5" ".py") false).scope
        "A" = some (.vint 1) := by
  decide

/-- Claim C6, counterexample: the claim says the ancestor loader
substitution is never a permanent mutation of the ancestor's loader
metadata.  After a successful dotted include of `pkg.frag`, the `finally`
clause has restored `pkg.__spec__.loader` to the original host loader, but
`pkg.__loader__` — also overwritten during the substitution — permanently
keeps the scope-directed split loader. -/
theorem C6_counterexample :
    (include' envPkg sysEmpty [] (.dotted "pkg.frag") false).err = none ∧
      (alookup (include' envPkg sysEmpty [] (.dotted "pkg.frag")
          false).sys.modules "pkg").map Module.specLoader = some .source ∧
      (alookup (include' envPkg sysEmpty [] (.dotted "pkg.frag")
          false).sys.modules "pkg").map Module.dunderLoader = some .split := by
  decide

/-- Claim C6, amended: for a dotted include with an already-imported
ancestor, the ancestor's `__spec__.loader` is restored to its original
loader once the inclusion completes, on success and on failure alike; the
ancestor's `__loader__` attribute, however, permanently keeps the split
loader. -/
theorem C6_amended (env : Env) (sys : Sys) (sc : Scope)
    (name parent : String) (m : Module) (opt : Bool)
    (hdot : containsDot name = true)
    (hpn : parentName name = parent)
    (hcache : alookup sys.modules name = none)
    (hpar : alookup sys.modules parent = some m)
    (hne : parent ≠ name) :
    (alookup (include' env sys sc (.dotted name) opt).sys.modules parent).map
        Module.specLoader = some m.specLoader ∧
      (alookup (include' env sys sc (.dotted name) opt).sys.modules
          parent).map Module.dunderLoader = some LoaderRef.split := by
  have hne' : name ≠ parent := Ne.symm hne
  have hcache2 : alookup
      (aset sys.modules parent
        { m with specLoader := LoaderRef.split,
                 dunderLoader := LoaderRef.split }) name = none := by
    rw [alookup_aset, if_neg hne]
    exact hcache
  rw [include'_eq]
  simp only [includeBody, hcache, hdot, if_true, hpn, parentSwap,
    importParent, hpar, swapLoader, withSplitFinder, importSplitModule,
    hcache2, SplitModuleFinderS.findSpec]
  cases hf : env.hostFind name with
  | none =>
    simp [hf, restoreLoader, alookup_aset]
  | some frag =>
    rcases hx : execModule frag sc with ⟨sc1, fl, e⟩
    cases e with
    | none =>
      simp [hf, splitLoad, hx, restoreLoader, alookup_aset, hne']
    | some err =>
      simp [hf, splitLoad, hx, restoreLoader, alookup_aset, alookup_aremove,
        hne']

/-- Witness for claim C6: concrete successful dotted include with the
ancestor `pkg` already imported under its host loader. -/
theorem C6_witness :
    (alookup (include' envPkg sysPkg [] (.dotted "pkg.frag")
        false).sys.modules "pkg").map Module.specLoader =
      some (Module.mk LoaderRef.source LoaderRef.source []).specLoader ∧
      (alookup (include' envPkg sysPkg [] (.dotted "pkg.frag")
          false).sys.modules "pkg").map Module.dunderLoader =
        some LoaderRef.split :=
  C6_amended envPkg sysPkg [] "pkg.frag" "pkg" ⟨.source, .source, []⟩ false
    (by decide) (by decide) (by decide) (by decide) (by decide)

end Splitmod
